import Mathlib

/-!
Verification of the combinator layer and diagnostic translator of the
`typed-html` macro parser (`macros/src/parser.rs`).

The Rust source builds parsers from the `pom` combinator library over
`proc_macro` token trees.  We shallowly embed:

* the `proc_macro` token model (`Span`, `Ident`, `Punct`, `Literal`,
  `Group` delimiters, `TokenTree`) — `Span.join` is partial, as in
  `proc_macro` (joining spans from different contexts yields `none`),
  which the code's `span.unwrap()` turns into a panic;
* the `pom` error type and the combinators the source uses
  (`comb`-style primitives, `+` sequencing, `*` keep-right sequencing,
  `|` alternation, `repeat`, `collect`, `discard`, `map`);
* the source's primitives (`punct`, `ident`, `ident_match`, `literal`,
  `group`), composite grammars (`type_spec`, `dotted_ident`,
  `html_ident`) and the error translator `parse_error`.

Panics (out-of-bounds indexing in `parse_error`, the `unwrap` in
`html_ident`) are modelled by `Option`: a `none` result marks a panic.
-/

namespace TypedHtml

/-- Model of `proc_macro::Span`: a source range within a syntax context.
`ctx` models the hygiene/file context: `proc_macro`'s `Span::join`
returns `None` for spans from different contexts, which we reproduce. -/
structure Span where
  ctx : Nat
  lo : Nat
  hi : Nat
deriving DecidableEq, Repr

/-- `Span::join`: the covering span when both spans share a context,
`none` otherwise (as in `proc_macro`). -/
def Span.join (s t : Span) : Option Span :=
  if s.ctx = t.ctx then some ⟨s.ctx, min s.lo t.lo, max s.hi t.hi⟩ else none

/-- `Span::call_site()`, the span attached to freshly synthesized tokens. -/
def Span.callSite : Span := ⟨0, 0, 0⟩

/-- Model of `proc_macro::Ident`: an identifier token. -/
structure Ident where
  name : String
  span : Span
deriving DecidableEq, Repr

/-- Model of `proc_macro::Punct`: a punctuation token.  (The `spacing`
field is never consulted by the parser, so it is omitted.) -/
structure Punct where
  ch : Char
  span : Span
deriving DecidableEq, Repr

/-- Model of `proc_macro::Literal`: a literal token. -/
structure Literal where
  text : String
  span : Span
deriving DecidableEq, Repr

/-- Model of `proc_macro::Delimiter`. -/
inductive Delimiter where
  | parenthesis
  | brace
  | bracket
  | none
deriving DecidableEq, Repr

/-- Model of `proc_macro::TokenTree`.  A group's token stream is its
list of top-level token trees. -/
inductive TokenTree where
  | ident (i : Ident)
  | punct (p : Punct)
  | lit (l : Literal)
  | group (delim : Delimiter) (stream : List TokenTree) (span : Span)
deriving Repr

/-- `TokenTree::span()`. -/
def TokenTree.span : TokenTree → Span
  | .ident i => i.span
  | .punct p => p.span
  | .lit l => l.span
  | .group _ _ s => s

/-- `to_stream` (parser.rs line 70): collects borrowed tokens into a
fresh `TokenStream`; a token stream is its list of token trees. -/
def to_stream (tokens : List TokenTree) : List TokenTree := tokens

/-- Model of `pom::Error`. -/
inductive PomError where
  | incomplete
  | mismatch (message : String) (position : Nat)
  | conversion (message : String) (position : Nat)
  | expect (message : String) (position : Nat) (inner : PomError)
  | custom (message : String) (position : Nat) (inner : Option PomError)
deriving Repr

/-- A `pom` parser over token trees: from input and start index to
either (value, next index) or an error. -/
def Parser (α : Type) : Type :=
  List TokenTree → Nat → Except PomError (α × Nat)

/-- `pom`'s `map` combinator. -/
def Parser.map (p : Parser α) (f : α → β) : Parser β := fun input start =>
  match p input start with
  | .ok (a, pos) => .ok (f a, pos)
  | .error e => .error e

/-- `pom`'s `+` (sequence, returning the pair of results). -/
def Parser.seq (p : Parser α) (q : Parser β) : Parser (α × β) := fun input start =>
  match p input start with
  | .ok (a, pos) =>
    match q input pos with
    | .ok (b, pos2) => .ok ((a, b), pos2)
    | .error e => .error e
  | .error e => .error e

/-- `pom`'s `*` (sequence, keeping the right result). -/
def Parser.mulRight (p : Parser α) (q : Parser β) : Parser β := fun input start =>
  match p input start with
  | .ok (_, pos) => q input pos
  | .error e => .error e

/-- `pom`'s `|` (alternation: try the left parser, on failure try the
right from the same start; the right alternative's error is reported). -/
def Parser.alt (p q : Parser α) : Parser α := fun input start =>
  match p input start with
  | .ok r => .ok r
  | .error _ => q input start

/-- `pom`'s `discard`. -/
def Parser.discard (p : Parser α) : Parser Unit := p.map (fun _ => ())

/-- `pom`'s `collect`: run the parser and return the consumed slice of
the input (`&input[start..end]`). -/
def Parser.collect (p : Parser α) : Parser (List TokenTree) := fun input start =>
  match p input start with
  | .ok (_, pos) => .ok ((input.take pos).drop start, pos)
  | .error e => .error e

/-- Greedy repetition loop of `pom`'s `repeat`: parse until failure or
until the optional maximum count is reached.  The fuel argument makes
the loop structurally terminating; callers pass fuel exceeding the
input length, which a loop whose body consumes at least one token per
iteration can never exhaust. -/
def Parser.repAux (p : Parser α) (input : List TokenTree) :
    Nat → Option Nat → Nat → List α × Nat
  | 0, _, pos => ([], pos)
  | fuel + 1, maxCount, pos =>
    if maxCount = some 0 then ([], pos)
    else
      match p input pos with
      | .error _ => ([], pos)
      | .ok (a, pos2) =>
        let rest := Parser.repAux p input fuel (maxCount.map (fun m => m - 1)) pos2
        (a :: rest.1, rest.2)

/-- `pom`'s `repeat(range)`: greedy repetition, then a check that the
number of repetitions lies in the range.  `minCount` is the range's
lower bound; `maxCount = some m` bounds the loop (used for `repeat(2)`),
`none` leaves it unbounded (`repeat(0..)`, `repeat(1..)`). -/
def Parser.repRange (p : Parser α) (minCount : Nat) (maxCount : Option Nat) :
    Parser (List α) := fun input start =>
  let r := Parser.repAux p input (input.length + 1) maxCount start
  if minCount ≤ r.1.length then .ok r
  else
    .error (.mismatch
      ("expect repeat at least " ++ toString minCount ++ " times, found " ++
        toString r.1.length ++ " times") start)

/-- `unit` (parser.rs line 7): always succeeds with a clone of `value`,
consuming nothing. -/
def unit (value : α) : Parser α := fun _ start => .ok (value, start)

/-- Rust's `{:?}` (Debug) rendering of a `char`, for the printable
characters the parser passes to `punct`: the character between single
quotes, with `'` and `\` backslash-escaped. -/
def rustCharDebug (c : Char) : String :=
  if c = '\'' then "'\\''"
  else if c = '\\' then "'\\\\'"
  else "'" ++ String.singleton c ++ "'"

/-- `punct` (parser.rs lines 11–19): match one punctuation token whose
character equals `c`. -/
def punct (c : Char) : Parser Punct := fun input start =>
  match input[start]? with
  | some (.punct p) =>
    if p.ch = c then .ok (p, start + 1)
    else .error (.mismatch ("expected " ++ rustCharDebug c) start)
  | _ => .error (.mismatch ("expected " ++ rustCharDebug c) start)

/-- `ident` (parser.rs lines 21–29): match one identifier token. -/
def ident : Parser Ident := fun input start =>
  match input[start]? with
  | some (.ident i) => .ok (i, start + 1)
  | _ => .error (.mismatch "expected identifier" start)

/-- `ident_match` (parser.rs lines 31–48): match one identifier token
whose text equals `name`. -/
def ident_match (name : String) : Parser Unit := fun input start =>
  match input[start]? with
  | some (.ident i) =>
    if i.name = name then .ok ((), start + 1)
    else
      .error (.mismatch
        ("expected '</" ++ name ++ ">', found '</" ++ i.name ++ ">'") start)
  | _ => .error (.mismatch "expected identifier" start)

/-- `literal` (parser.rs lines 50–58): match one literal token. -/
def literal : Parser Literal := fun input start =>
  match input[start]? with
  | some (.lit l) => .ok (l, start + 1)
  | _ => .error (.mismatch "expected literal" start)

/-- `group` (parser.rs lines 60–68): match one group token, returning
its delimiter, stream and span. -/
def group : Parser (Delimiter × List TokenTree × Span) := fun input start =>
  match input[start]? with
  | some (.group d s sp) => .ok ((d, s, sp), start + 1)
  | _ => .error (.mismatch "expected group" start)

/-- The `valid` alternation inside `type_spec` (parser.rs lines 77–82):
an identifier or one of the punctuation characters `:`, `<`, `>`, `&`, `'`. -/
def validTypeToken : Parser TokenTree :=
  ((((ident.map TokenTree.ident).alt
    ((punct ':').map TokenTree.punct)).alt
    ((punct '<').map TokenTree.punct)).alt
    ((punct '>').map TokenTree.punct)).alt
    ((punct '&').map TokenTree.punct) |>.alt
    ((punct '\'').map TokenTree.punct)

/-- `type_spec` (parser.rs lines 76–84): one or more type-like tokens,
re-serialized as a token stream of the consumed tokens. -/
def type_spec : Parser (List TokenTree) :=
  Parser.map (Parser.collect (Parser.repRange validTypeToken 1 Option.none)) to_stream

/-- `dotted_ident` (parser.rs lines 86–98): an identifier followed by
zero or more `.`-identifier or `::`-identifier steps; a single matched
token is returned unchanged, a longer match is wrapped in a synthesized
brace `Group` (whose span, from `Group::new`, is the call site). -/
def dotted_ident : Parser TokenTree :=
  Parser.map
    (Parser.collect
      (Parser.seq (ident.map TokenTree.ident)
        (Parser.repRange
          ((Parser.seq (punct '.') ident).discard.alt
            (Parser.seq (Parser.repRange (punct ':') 2 (some 2)) ident).discard)
          0 Option.none)))
    (fun tokens =>
      match tokens with
      | [t] => t
      | ts => TokenTree.group .brace (to_stream ts) Span.callSite)

/-- The span half of the fold step inside `html_ident` (parser.rs lines
110–113): the first token seeds the accumulator, every later token's
span is joined in. -/
def spanStep (acc : Option Span) (token : TokenTree) : Option Span :=
  match acc with
  | Option.none => some token.span
  | some s => s.join token.span

/-- The name half of the fold step inside `html_ident` (parser.rs lines
114–118): identifiers contribute their text, punctuation contributes
`_`.  (The source's `unreachable!()` arm for other tokens is never hit,
because the grammar only consumes identifiers and punctuation.) -/
def nameStep (acc : String) (token : TokenTree) : String :=
  match token with
  | .ident i => acc ++ i.name
  | .punct _ => acc ++ "_"
  | _ => acc

/-- The full fold step of `html_ident` (parser.rs lines 108–120),
updating the (span, name) accumulator pair. -/
def htmlStep (acc : Option Span × String) (token : TokenTree) :
    Option Span × String :=
  (spanStep acc.1 token, nameStep acc.2 token)

/-- The fold of `html_ident` restricted to its span component: the
left-to-right fold of `Span::join` over the tokens' spans. -/
def spanFoldJoin (tokens : List TokenTree) : Option Span :=
  tokens.foldl spanStep Option.none

/-- The fold of `html_ident` restricted to its name component. -/
def htmlNameFold (tokens : List TokenTree) : String :=
  tokens.foldl nameStep ""

/-- The map step of `html_ident` (parser.rs lines 105–121): fold span
and name over the consumed tokens and build `Ident::new(name,
span.unwrap())`.  A `none` result models the panic of `unwrap` when the
fold's final `Span::join` failed. -/
def htmlMerge (stream : List TokenTree) : Option Ident :=
  let r := stream.foldl htmlStep (Option.none, "")
  r.1.map (fun s => { name := r.2, span := s })

/-- `html_ident` (parser.rs lines 102–123): an identifier followed by
zero or more `-`-identifier steps, merged into one synthesized
identifier.  The output is `some` of the merged identifier, or `none`
when the `span.unwrap()` would panic. -/
def html_ident : Parser (Option Ident) :=
  Parser.map
    (Parser.collect
      (Parser.mulRight ident
        (Parser.repRange (Parser.mulRight (punct '-') ident) 0 Option.none)))
    htmlMerge

/-- Model of `proc_macro::Level`. -/
inductive Level where
  | error
  | warning
  | note
  | help
deriving DecidableEq, Repr

/-- One child annotation of a diagnostic: the level, spans and message
added by `span_error` and friends. -/
structure DiagChild where
  level : Level
  spans : List Span
  message : String
deriving DecidableEq, Repr

/-- Model of `proc_macro::Diagnostic`. -/
structure Diagnostic where
  level : Level
  spans : List Span
  message : String
  children : List DiagChild
deriving DecidableEq, Repr

/-- `Diagnostic::new(level, message)`: no spans attached. -/
def Diagnostic.new (level : Level) (message : String) : Diagnostic :=
  ⟨level, [], message, []⟩

/-- `Diagnostic::spanned(span, level, message)`. -/
def Diagnostic.spanned (span : Span) (level : Level) (message : String) : Diagnostic :=
  ⟨level, [span], message, []⟩

/-- `Diagnostic::span_error(spans, message)`: append an error-level
child annotation. -/
def Diagnostic.span_error (d : Diagnostic) (spans : List Span) (message : String) :
    Diagnostic :=
  { d with children := d.children ++ [⟨Level.error, spans, message⟩] }

/-- `parse_error` (parser.rs lines 126–159): translate a `pom` error
into a diagnostic.  The source indexes `input[*position]`, which panics
when `position ≥ input.length`; a `none` result models that panic. -/
def parse_error (input : List TokenTree) (error : PomError) : Option Diagnostic :=
  match error with
  | .incomplete => some (Diagnostic.new .error "unexpected end of macro!")
  | .mismatch message pos =>
    (input[pos]?).map (fun t => Diagnostic.spanned t.span .error message)
  | .conversion message pos =>
    (input[pos]?).map (fun t => Diagnostic.spanned t.span .error message)
  | .expect message pos inner =>
    match input[pos]?, parse_error input inner with
    | some t, some child =>
      some ((Diagnostic.spanned t.span .error message).span_error child.spans child.message)
    | _, _ => Option.none
  | .custom message pos inner =>
    match input[pos]? with
    | some t =>
      match inner with
      | some i =>
        match parse_error input i with
        | some child =>
          some ((Diagnostic.spanned t.span .error message).span_error child.spans child.message)
        | Option.none => Option.none
      | Option.none => some (Diagnostic.spanned t.span .error message)
    | Option.none => Option.none

/-- All `position` fields of an error (and of its inner errors) lie
strictly below `n`, i.e. are in-bounds token indices. -/
def errPosOk (n : Nat) : PomError → Bool
  | .incomplete => true
  | .mismatch _ p => decide (p < n)
  | .conversion _ p => decide (p < n)
  | .expect _ p inner => decide (p < n) && errPosOk n inner
  | .custom _ p inner =>
    decide (p < n) &&
      (match inner with
       | some i => errPosOk n i
       | Option.none => true)

/-! Concrete token fixtures used in the example-based theorems. -/

def spA : Span := ⟨0, 0, 1⟩

def spB : Span := ⟨0, 1, 2⟩

def spC : Span := ⟨0, 2, 3⟩

def spD : Span := ⟨0, 3, 4⟩

def spE : Span := ⟨0, 4, 5⟩

/-- The run `a` `-` `b` `-` `c` of identifiers separated by hyphens. -/
def htoks : List TokenTree :=
  [.ident ⟨"a", spA⟩, .punct ⟨'-', spB⟩, .ident ⟨"b", spC⟩,
   .punct ⟨'-', spD⟩, .ident ⟨"c", spE⟩]

/-- A hyphenated run whose last token's span comes from a different
syntax context, so the final `Span::join` of the fold fails. -/
def panicToks : List TokenTree :=
  [.ident ⟨"a", ⟨0, 0, 1⟩⟩, .punct ⟨'-', ⟨0, 1, 2⟩⟩, .ident ⟨"b", ⟨1, 2, 3⟩⟩]

/-- The run `a` `.` `b`. -/
def dotToks : List TokenTree :=
  [.ident ⟨"a", spA⟩, .punct ⟨'.', spB⟩, .ident ⟨"b", spC⟩]

/-- The run `a` `:` `:` `b`. -/
def colonToks : List TokenTree :=
  [.ident ⟨"a", spA⟩, .punct ⟨':', spB⟩, .punct ⟨':', spC⟩, .ident ⟨"b", spD⟩]

/-- The run `Vec` `<` `i32` `>`. -/
def vecToks : List TokenTree :=
  [.ident ⟨"Vec", spA⟩, .punct ⟨'<', spB⟩, .ident ⟨"i32", spC⟩, .punct ⟨'>', spD⟩]

/-! Helper lemmas. -/

/-- The pair fold of `html_ident` splits into the span fold and the
name fold, run independently. -/
theorem foldl_htmlStep_split (ts : List TokenTree) :
    ∀ (a : Option Span) (b : String),
      ts.foldl htmlStep (a, b) = (ts.foldl spanStep a, ts.foldl nameStep b) := by
  induction ts with
  | nil => intro a b; rfl
  | cons t ts ih => intro a b; simp [List.foldl, htmlStep, ih]

/-- `htmlMerge` is the span fold mapped over the name fold. -/
theorem htmlMerge_eq (ts : List TokenTree) :
    htmlMerge ts =
      (spanFoldJoin ts).map (fun s => ⟨htmlNameFold ts, s⟩) := by
  unfold htmlMerge spanFoldJoin htmlNameFold
  rw [foldl_htmlStep_split]

/-- Any parser of the shape `p.collect().map(f)` computes its value by
applying `f` to the consumed slice of the input. -/
theorem map_collect_ok (p : Parser α) (f : List TokenTree → β)
    (input : List TokenTree) (start : Nat) (v : β) (k : Nat)
    (h : Parser.map (Parser.collect p) f input start = .ok (v, k)) :
    v = f ((input.take k).drop start) := by
  unfold Parser.map Parser.collect at h
  rcases hb : p input start with e | ⟨r, pos⟩
  · rw [hb] at h
    simp at h
  · rw [hb] at h
    simp at h
    obtain ⟨h1, h2⟩ := h
    subst h2
    exact h1.symm

/-! Theorems settling the claims. -/

/-- C2 (amended): translating the `Incomplete` error produces a
diagnostic that carries no span and whose message is exactly
"unexpected end of macro!". -/
theorem parse_error_incomplete (tokens : List TokenTree) :
    parse_error tokens .incomplete =
      some ⟨Level.error, [], "unexpected end of macro!", []⟩ := rfl

/-- C2 counterexample: the diagnostic for `Incomplete` has message
"unexpected end of macro!", not "unexpected end of input." as claimed. -/
theorem parse_error_incomplete_message_differs :
    parse_error ([] : List TokenTree) .incomplete =
      some ⟨Level.error, [], "unexpected end of macro!", []⟩ ∧
    "unexpected end of macro!" ≠ "unexpected end of input." :=
  ⟨rfl, by decide⟩

/-- C8: translating `Expect{message, position = p, inner =
Mismatch{inner message, position = q}}` yields a diagnostic anchored at
token `p`'s span with the outer message and exactly one child
annotation, anchored at token `q`'s span, with the inner message. -/
theorem parse_error_expect_child (tokens : List TokenTree) (p q : Nat)
    (mo mi : String) (hp : p < tokens.length) (hq : q < tokens.length) :
    parse_error tokens (.expect mo p (.mismatch mi q)) =
      some ⟨Level.error, [(tokens[p]).span], mo,
        [⟨Level.error, [(tokens[q]).span], mi⟩]⟩ := by
  simp [parse_error, List.getElem?_eq_getElem hp, List.getElem?_eq_getElem hq,
    Diagnostic.spanned, Diagnostic.span_error]

/-- C8 witness at a concrete input: `Expect` at position 0 wrapping a
`Mismatch` at position 2 of the 5-token run. -/
theorem parse_error_expect_child_witness :
    parse_error htoks (.expect "outer" 0 (.mismatch "inner" 2)) =
      some ⟨Level.error, [spA], "outer", [⟨Level.error, [spC], "inner"⟩]⟩ :=
  parse_error_expect_child htoks 0 2 "outer" "inner" (by decide) (by decide)

/-- C9: on every success of `type_spec`, the output token stream equals
the run of input tokens it consumed, token for token and in order; in
particular on `Vec` `<` `i32` `>` it matches all four tokens and
returns them unchanged. -/
theorem type_spec_roundtrip :
    (∀ input start s k, type_spec input start = .ok (s, k) →
      s = (input.take k).drop start) ∧
    type_spec vecToks 0 = .ok (vecToks, 4) := by
  constructor
  · intro input start s k h
    exact map_collect_ok (Parser.repRange validTypeToken 1 Option.none)
      to_stream input start s k h
  · rfl

/-- C9 witness: the round-trip equation instantiated on the consumed
run `Vec` `<` `i32` `>`. -/
theorem type_spec_roundtrip_witness :
    vecToks = (vecToks.take 4).drop 0 :=
  type_spec_roundtrip.1 vecToks 0 vecToks 4 rfl

/-- C4: `html_ident` on the run `a` `-` `b` `-` `c` succeeds with the
single synthesized identifier `a_b_c`, consumes all 5 tokens, and its
span is the left-to-right fold of `Span::join` over the consumed
tokens' spans, covering the first through the last token. -/
theorem html_ident_merges_run :
    html_ident htoks 0 = .ok (some ⟨"a_b_c", ⟨0, 0, 5⟩⟩, 5) ∧
    spanFoldJoin htoks = some ⟨0, 0, 5⟩ :=
  ⟨rfl, rfl⟩

/-- C10: on every success of `html_ident`, the result is the
`Span::join` fold over the consumed tokens mapped into an identifier —
so it is `some` (no panic) exactly when the fold's final join
succeeded; and there is an input (spans from two syntax contexts) on
which the parse succeeds but the fold ends with a failed join, so the
`unwrap` panics (`none`). -/
theorem html_ident_span_unwrap :
    (∀ input start v k, html_ident input start = .ok (v, k) →
      v = (spanFoldJoin ((input.take k).drop start)).map
        (fun s => ⟨htmlNameFold ((input.take k).drop start), s⟩)) ∧
    html_ident panicToks 0 = .ok (Option.none, 3) := by
  constructor
  · intro input start v k h
    have hv := map_collect_ok
      (Parser.mulRight ident
        (Parser.repRange (Parser.mulRight (punct '-') ident) 0 Option.none))
      htmlMerge input start v k h
    rw [hv, htmlMerge_eq]
  · rfl

/-- C10 witness: the fold equation instantiated on the successful parse
of `a` `-` `b` `-` `c`. -/
theorem html_ident_span_unwrap_witness :
    (some ⟨"a_b_c", ⟨0, 0, 5⟩⟩ : Option Ident) =
      (spanFoldJoin ((htoks.take 5).drop 0)).map
        (fun s => ⟨htmlNameFold ((htoks.take 5).drop 0), s⟩) :=
  html_ident_span_unwrap.1 htoks 0 (some ⟨"a_b_c", ⟨0, 0, 5⟩⟩) 5 rfl

/-- C5: on every success of `dotted_ident`, a single-token match is
returned unchanged and a longer match is wrapped in a brace-delimited
`Group` holding the full matched sequence in order; concretely, a lone
identifier `x` comes back unchanged, `a` `.` `b` comes back as a brace
group of the three tokens, and `a` `:` `:` `b` as a brace group of the
four tokens. -/
theorem dotted_ident_wrapping :
    (∀ input start v k, dotted_ident input start = .ok (v, k) →
      (∀ t, (input.take k).drop start = [t] → v = t) ∧
      (1 < ((input.take k).drop start).length →
        v = TokenTree.group .brace (to_stream ((input.take k).drop start))
          Span.callSite)) ∧
    dotted_ident [TokenTree.ident ⟨"x", spA⟩] 0 =
      .ok (TokenTree.ident ⟨"x", spA⟩, 1) ∧
    dotted_ident dotToks 0 =
      .ok (TokenTree.group .brace (to_stream dotToks) Span.callSite, 3) ∧
    dotted_ident colonToks 0 =
      .ok (TokenTree.group .brace (to_stream colonToks) Span.callSite, 4) := by
  refine ⟨?_, rfl, rfl, rfl⟩
  intro input start v k h
  unfold dotted_ident at h
  have hv := map_collect_ok _ _ input start v k h
  constructor
  · intro t ht
    rw [ht] at hv
    exact hv
  · intro hlen
    rcases hts : (input.take k).drop start with _ | ⟨t, _ | ⟨u, rest⟩⟩
    · rw [hts] at hlen
      simp at hlen
    · rw [hts] at hlen
      simp at hlen
    · rw [hts] at hv
      exact hv

/-- C5 witness: the group-wrapping equation instantiated on the
successful parse of `a` `.` `b`. -/
theorem dotted_ident_wrapping_witness :
    TokenTree.group .brace (to_stream dotToks) Span.callSite =
      TokenTree.group .brace (to_stream ((dotToks.take 3).drop 0))
        Span.callSite :=
  (dotted_ident_wrapping.1 dotToks 0
      (TokenTree.group .brace (to_stream dotToks) Span.callSite) 3 rfl).2
    (by decide)

/-- C3: for every primitive combinator, if the token at the start index
does not satisfy its predicate (including when the start index is at or
past the end of the slice), the result is a `Mismatch` error whose
position equals the start index. -/
theorem primitive_mismatch_at_start (c : Char) (name : String)
    (input : List TokenTree) (start : Nat) :
    ((∀ p, input[start]? = some (.punct p) → p.ch ≠ c) →
      ∃ m, punct c input start = .error (.mismatch m start)) ∧
    ((∀ i, input[start]? ≠ some (.ident i)) →
      ∃ m, ident input start = .error (.mismatch m start)) ∧
    ((∀ i, input[start]? = some (.ident i) → i.name ≠ name) →
      ∃ m, ident_match name input start = .error (.mismatch m start)) ∧
    ((∀ l, input[start]? ≠ some (.lit l)) →
      ∃ m, literal input start = .error (.mismatch m start)) ∧
    ((∀ d s sp, input[start]? ≠ some (.group d s sp)) →
      ∃ m, group input start = .error (.mismatch m start)) := by
  refine ⟨?_, ?_, ?_, ?_, ?_⟩
  · intro h
    rcases hx : input[start]? with _ | t
    · exact ⟨"expected " ++ rustCharDebug c, by simp [punct, hx]⟩
    · cases t with
      | punct p => exact ⟨"expected " ++ rustCharDebug c, by simp [punct, hx, h p hx]⟩
      | ident i => exact ⟨"expected " ++ rustCharDebug c, by simp [punct, hx]⟩
      | lit l => exact ⟨"expected " ++ rustCharDebug c, by simp [punct, hx]⟩
      | group d s sp => exact ⟨"expected " ++ rustCharDebug c, by simp [punct, hx]⟩
  · intro h
    rcases hx : input[start]? with _ | t
    · exact ⟨"expected identifier", by simp [ident, hx]⟩
    · cases t with
      | ident i => exact absurd hx (h i)
      | punct p => exact ⟨"expected identifier", by simp [ident, hx]⟩
      | lit l => exact ⟨"expected identifier", by simp [ident, hx]⟩
      | group d s sp => exact ⟨"expected identifier", by simp [ident, hx]⟩
  · intro h
    rcases hx : input[start]? with _ | t
    · exact ⟨"expected identifier", by simp [ident_match, hx]⟩
    · cases t with
      | ident i =>
        exact ⟨"expected '</" ++ name ++ ">', found '</" ++ i.name ++ ">'",
          by simp [ident_match, hx, h i hx]⟩
      | punct p => exact ⟨"expected identifier", by simp [ident_match, hx]⟩
      | lit l => exact ⟨"expected identifier", by simp [ident_match, hx]⟩
      | group d s sp => exact ⟨"expected identifier", by simp [ident_match, hx]⟩
  · intro h
    rcases hx : input[start]? with _ | t
    · exact ⟨"expected literal", by simp [literal, hx]⟩
    · cases t with
      | lit l => exact absurd hx (h l)
      | ident i => exact ⟨"expected literal", by simp [literal, hx]⟩
      | punct p => exact ⟨"expected literal", by simp [literal, hx]⟩
      | group d s sp => exact ⟨"expected literal", by simp [literal, hx]⟩
  · intro h
    rcases hx : input[start]? with _ | t
    · exact ⟨"expected group", by simp [group, hx]⟩
    · cases t with
      | group d s sp => exact absurd hx (h d s sp)
      | ident i => exact ⟨"expected group", by simp [group, hx]⟩
      | punct p => exact ⟨"expected group", by simp [group, hx]⟩
      | lit l => exact ⟨"expected group", by simp [group, hx]⟩

/-- C3 witness: each primitive, run at index 0 of the empty slice (a
start index past the end), fails with a `Mismatch` at position 0. -/
theorem primitive_mismatch_at_start_witness :
    (∃ m, punct ':' ([] : List TokenTree) 0 = .error (.mismatch m 0)) ∧
    (∃ m, ident ([] : List TokenTree) 0 = .error (.mismatch m 0)) ∧
    (∃ m, ident_match "div" ([] : List TokenTree) 0 = .error (.mismatch m 0)) ∧
    (∃ m, literal ([] : List TokenTree) 0 = .error (.mismatch m 0)) ∧
    (∃ m, group ([] : List TokenTree) 0 = .error (.mismatch m 0)) := by
  have h := primitive_mismatch_at_start ':' "div" ([] : List TokenTree) 0
  exact ⟨h.1 (by simp), h.2.1 (by simp), h.2.2.1 (by simp),
    h.2.2.2.1 (by simp), h.2.2.2.2 (by simp)⟩

/-- C6 (amended): `punct c` succeeds, returning the token and advancing
by one, exactly when the token at the start index is a punctuation
token whose character is `c`; otherwise (including past the end) it
fails with a `Mismatch` at the start index whose message is
"expected " followed by the character in Rust's Debug (`{:?}`)
rendering, i.e. wrapped in single quotes. -/
theorem punct_characterization (c : Char) (input : List TokenTree) (start : Nat) :
    (∀ p, input[start]? = some (.punct p) → p.ch = c →
      punct c input start = .ok (p, start + 1)) ∧
    ((∀ p, input[start]? = some (.punct p) → p.ch ≠ c) →
      punct c input start =
        .error (.mismatch ("expected " ++ rustCharDebug c) start)) ∧
    (∀ v k, punct c input start = .ok (v, k) →
      input[start]? = some (.punct v) ∧ v.ch = c ∧ k = start + 1) := by
  refine ⟨?_, ?_, ?_⟩
  · intro p hx hc
    simp [punct, hx, hc]
  · intro h
    rcases hx : input[start]? with _ | t
    · simp [punct, hx]
    · cases t with
      | punct p => simp [punct, hx, h p hx]
      | ident i => simp [punct, hx]
      | lit l => simp [punct, hx]
      | group d s sp => simp [punct, hx]
  · intro v k h
    unfold punct at h
    rcases hx : input[start]? with _ | t
    · rw [hx] at h
      simp at h
    · rw [hx] at h
      cases t with
      | punct p =>
        by_cases hc : p.ch = c
        · simp [hc] at h
          obtain ⟨h1, h2⟩ := h
          subst h1
          exact ⟨rfl, hc, h2.symm⟩
        · simp [hc] at h
      | ident i => simp at h
      | lit l => simp at h
      | group d s sp => simp at h

/-- C6 counterexample: `punct('<')` past the end of input fails with
message "expected '<'" (the character Debug-quoted), which is not the
claimed "expected <". -/
theorem punct_message_quotes :
    punct '<' ([] : List TokenTree) 0 =
      .error (.mismatch "expected '<'" 0) ∧
    "expected '<'" ≠ "expected <" :=
  ⟨rfl, by decide⟩

/-- C6 witness: `punct('<')` at index 1 of `Vec` `<` `i32` `>` returns
the `<` token and advances to index 2. -/
theorem punct_characterization_witness :
    punct '<' vecToks 1 = .ok (⟨'<', spB⟩, 1 + 1) :=
  (punct_characterization '<' vecToks 1).1 ⟨'<', spB⟩ rfl rfl

/-- C7: `ident_match name` succeeds (advancing by one, returning unit)
exactly when the token at the start index is an identifier whose text
equals `name`; on an identifier with different text it fails with a
`Mismatch` whose message contains both the expected and the actual
text; on a non-identifier token or end of input it fails with
"expected identifier". -/
theorem ident_match_characterization (name : String)
    (input : List TokenTree) (start : Nat) :
    (∀ i, input[start]? = some (.ident i) → i.name = name →
      ident_match name input start = .ok ((), start + 1)) ∧
    (∀ i, input[start]? = some (.ident i) → i.name ≠ name →
      ∃ pre mid post,
        ident_match name input start =
          .error (.mismatch (pre ++ name ++ mid ++ i.name ++ post) start)) ∧
    ((∀ i, input[start]? ≠ some (.ident i)) →
      ident_match name input start =
        .error (.mismatch "expected identifier" start)) ∧
    (∀ v k, ident_match name input start = .ok (v, k) →
      ∃ i, input[start]? = some (.ident i) ∧ i.name = name ∧ k = start + 1) := by
  refine ⟨?_, ?_, ?_, ?_⟩
  · intro i hx hn
    simp [ident_match, hx, hn]
  · intro i hx hn
    refine ⟨"expected '</", ">', found '</", ">'", ?_⟩
    simp [ident_match, hx, hn]
  · intro h
    rcases hx : input[start]? with _ | t
    · simp [ident_match, hx]
    · cases t with
      | ident i => exact absurd hx (h i)
      | punct p => simp [ident_match, hx]
      | lit l => simp [ident_match, hx]
      | group d s sp => simp [ident_match, hx]
  · intro v k h
    unfold ident_match at h
    rcases hx : input[start]? with _ | t
    · rw [hx] at h
      simp at h
    · rw [hx] at h
      cases t with
      | ident i =>
        by_cases hn : i.name = name
        · simp [hn] at h
          exact ⟨i, rfl, hn, h.symm⟩
        · simp [hn] at h
      | punct p => simp at h
      | lit l => simp at h
      | group d s sp => simp at h

/-- C7 witness: `ident_match "a"` at the start of the run `a` `-` `b`
`-` `c` succeeds and advances to index 1, and `ident_match "div"` on
the identifier `a` fails with a message embedding both "div" and "a". -/
theorem ident_match_characterization_witness :
    ident_match "a" htoks 0 = .ok ((), 0 + 1) ∧
    (∃ pre mid post,
      ident_match "div" htoks 0 =
        .error (.mismatch (pre ++ "div" ++ mid ++ "a" ++ post) 0)) :=
  ⟨(ident_match_characterization "a" htoks 0).1 ⟨"a", spA⟩ rfl rfl,
    (ident_match_characterization "div" htoks 0).2.1 ⟨"a", spA⟩ rfl (by decide)⟩

/-- C1 (amended): for every error all of whose position fields lie
strictly within `[0, len(tokens))`, the diagnostic translator neither
fails nor panics.  (Positions equal to `len(tokens)` — which the
primitives do report at end of input — make the translator's indexing
panic, so the claimed bound `[0, len(tokens)]` is one too wide.) -/
theorem parse_error_total_inbounds (tokens : List TokenTree) :
    (err : PomError) → errPosOk tokens.length err = true →
      (parse_error tokens err).isSome = true
  | .incomplete, _ => rfl
  | .mismatch m p, h => by
    have hp : p < tokens.length := by simpa [errPosOk] using h
    simp [parse_error, List.getElem?_eq_getElem hp]
  | .conversion m p, h => by
    have hp : p < tokens.length := by simpa [errPosOk] using h
    simp [parse_error, List.getElem?_eq_getElem hp]
  | .expect m p inner, h => by
    rw [errPosOk, Bool.and_eq_true] at h
    have hp : p < tokens.length := by simpa using h.1
    have hi := parse_error_total_inbounds tokens inner h.2
    obtain ⟨child, hc⟩ := Option.isSome_iff_exists.mp hi
    simp [parse_error, List.getElem?_eq_getElem hp, hc]
  | .custom m p (some i), h => by
    rw [errPosOk, Bool.and_eq_true] at h
    have hp : p < tokens.length := by simpa using h.1
    have hi := parse_error_total_inbounds tokens i (by simpa using h.2)
    obtain ⟨child, hc⟩ := Option.isSome_iff_exists.mp hi
    simp [parse_error, List.getElem?_eq_getElem hp, hc]
  | .custom m p Option.none, h => by
    rw [errPosOk, Bool.and_eq_true] at h
    have hp : p < tokens.length := by simpa using h.1
    simp [parse_error, List.getElem?_eq_getElem hp]

/-- C1 witness: a nested error whose positions 0 and 2 are in bounds
for the 5-token run translates successfully. -/
theorem parse_error_total_inbounds_witness :
    (parse_error htoks (.expect "outer" 0 (.mismatch "inner" 2))).isSome = true :=
  parse_error_total_inbounds htoks (.expect "outer" 0 (.mismatch "inner" 2))
    (by decide)

/-- C1 counterexample: on the empty token slice, `punct` itself reports
a `Mismatch` at position 0 — which lies within the claimed interval
`[0, len(tokens)] = [0, 0]` — yet translating that very error panics
(out-of-bounds index), so translation is not total on
primitive-produced positions in `[0, len(tokens)]`. -/
theorem parse_error_panics_at_length :
    punct ':' ([] : List TokenTree) 0 =
      .error (.mismatch "expected ':'" 0) ∧
    parse_error ([] : List TokenTree) (.mismatch "expected ':'" 0) =
      Option.none :=
  ⟨rfl, rfl⟩

end TypedHtml
